import Mathlib

/-!
Verification development for the 2048 game core
(`Board` in `src/js/ScoreManager.js`, `MoveProcessor` and `GameEngine`
in `src/unnamed/part_002`).

Modelling conventions:
* JavaScript numbers holding tile values are modelled as `Nat`
  (the game only ever stores `0` or positive powers of two).
* In-place mutation is modelled by state passing: a JS method that
  mutates its board argument becomes a Lean function returning the
  updated board alongside its result value.
* `Board.getCell` returns `Option Nat`; `none` models the `null`
  sentinel returned for out-of-range indices.
* The `Board` structure carries the shape invariant (a `size` × `size`
  matrix) that the JS constructor establishes and every method preserves.
* Randomness (`Math.random` in `Board.addRandomTile`) is passed in as
  explicit parameters: the index choice among empty cells and the
  2-versus-4 value choice.
-/

namespace Game2048

/-- The game board: `size` × `size` matrix of tile values
(`Board` class, `src/js/ScoreManager.js`). The two propositional fields
record the matrix shape maintained by the JS class. -/
structure Board where
  size : Nat
  grid : List (List Nat)
  hrows : grid.length = size
  hcols : ∀ row ∈ grid, row.length = size

theorem Board.eq_of (a b : Board) (h1 : a.size = b.size) (h2 : a.grid = b.grid) :
    a = b := by
  cases a; cases b
  cases h1; cases h2
  rfl

instance : DecidableEq Board := fun a b =>
  decidable_of_iff (a.size = b.size ∧ a.grid = b.grid) (by
    constructor
    · rintro ⟨h1, h2⟩; exact Board.eq_of a b h1 h2
    · rintro rfl; exact ⟨rfl, rfl⟩)

/-- In-range cell read: the value of `grid[row][col]`.  This is
`Board.getCell` specialised to indices inside `0..size-1`
(see `Board.getCell_eq_cell`). -/
def Board.cell (b : Board) (row col : Nat) : Nat :=
  (b.grid.getD row []).getD col 0

/-- Embeds `Board.getCell` (`src/js/ScoreManager.js` lines 239-244): bounds-checked
read; out-of-range indices yield `none` (the JS `null` sentinel). -/
def Board.getCell (b : Board) (row col : Int) : Option Nat :=
  if row < 0 ∨ (b.size : Int) ≤ row ∨ col < 0 ∨ (b.size : Int) ≤ col then
    none
  else
    some (b.cell row.toNat col.toNat)

/-- Embeds `Board.setCell` (`src/js/ScoreManager.js` lines 252-256): bounds-checked
write; out-of-range indices make it a no-op. -/
def Board.setCell (b : Board) (row col : Int) (value : Nat) : Board :=
  if h : 0 ≤ row ∧ row < (b.size : Int) ∧ 0 ≤ col ∧ col < (b.size : Int) then
    { size := b.size
      grid := b.grid.set row.toNat ((b.grid.getD row.toNat []).set col.toNat value)
      hrows := by rw [List.length_set]; exact b.hrows
      hcols := by
        intro r hr
        rcases List.mem_or_eq_of_mem_set hr with hmem | heq
        · exact b.hcols r hmem
        · subst heq
          rw [List.length_set]
          have hlt : row.toNat < b.grid.length := by
            rw [b.hrows]
            omega
          have : b.grid.getD row.toNat [] = b.grid[row.toNat] :=
            List.getD_eq_getElem b.grid [] hlt
          rw [this]
          exact b.hcols _ (List.getElem_mem hlt) }
  else
    b

theorem Board.size_setCell (b : Board) (row col : Int) (value : Nat) :
    (b.setCell row col value).size = b.size := by
  unfold Board.setCell
  split <;> rfl

theorem Board.getCell_eq_cell (b : Board) (row col : Nat)
    (hr : row < b.size) (hc : col < b.size) :
    b.getCell row col = some (b.cell row col) := by
  unfold Board.getCell
  rw [if_neg]
  · simp
  · push_neg
    refine ⟨by positivity, by exact_mod_cast hr, by positivity, by exact_mod_cast hc⟩

theorem Board.cell_eq_get (b : Board) (row col : Nat)
    (hr : row < b.size) (hc : col < b.size) :
    b.cell row col =
      (b.grid.get ⟨row, by rw [b.hrows]; exact hr⟩).get
        ⟨col, by rw [b.hcols _ (b.grid.get_mem _ _)]; exact hc⟩ := by
  unfold Board.cell
  have hrl : row < b.grid.length := by rw [b.hrows]; exact hr
  rw [List.getD_eq_getElem b.grid [] hrl]
  have hcl : col < (b.grid[row]).length := by
    rw [b.hcols _ (List.getElem_mem hrl)]; exact hc
  rw [List.getD_eq_getElem _ 0 hcl]
  simp [List.get_eq_getElem]

/-- How one in-range write reads back: the written position holds the new
value, every other position is unchanged. -/
theorem Board.cell_setCell (b : Board) (row col : Nat) (value : Nat)
    (hr : row < b.size) (hc : col < b.size) (r c : Nat) :
    (b.setCell row col value).cell r c =
      if r = row ∧ c = col then value else b.cell r c := by
  have hcond : (0 : Int) ≤ (row : Int) ∧ (row : Int) < (b.size : Int) ∧
      (0 : Int) ≤ (col : Int) ∧ (col : Int) < (b.size : Int) := by
    refine ⟨by positivity, by exact_mod_cast hr, by positivity, by exact_mod_cast hc⟩
  unfold Board.setCell
  rw [dif_pos hcond]
  unfold Board.cell
  simp only [Int.toNat_ofNat]
  have hrl : row < b.grid.length := by rw [b.hrows]; exact hr
  by_cases hrow : r = row
  · subst hrow
    rw [List.getD_eq_getElem _ [] (by rw [List.length_set]; exact hrl)]
    rw [List.getElem_set_self]
    rw [List.getD_eq_getElem b.grid [] hrl]
    have hcl : col < (b.grid[r]).length := by
      rw [b.hcols _ (List.getElem_mem hrl)]; exact hc
    by_cases hcol : c = col
    · subst hcol
      rw [if_pos ⟨rfl, rfl⟩]
      rw [List.getD_eq_getElem _ 0 (by rw [List.length_set]; exact hcl)]
      rw [List.getElem_set_self]
    · rw [if_neg (by tauto)]
      rcases Nat.lt_or_ge c (b.grid[r]).length with hlt | hge
      · rw [List.getD_eq_getElem _ 0 (by rw [List.length_set]; exact hlt)]
        rw [List.getD_eq_getElem _ 0 hlt]
        rw [List.getElem_set_ne (by omega)]
      · rw [List.getD_eq_default _ 0 (by rw [List.length_set]; exact hge)]
        rw [List.getD_eq_default _ 0 hge]
  · rw [if_neg (by tauto)]
    congr 1
    rcases Nat.lt_or_ge r b.grid.length with hlt | hge
    · rw [List.getD_eq_getElem _ [] (by rw [List.length_set]; exact hlt)]
      rw [List.getD_eq_getElem _ [] hlt]
      rw [List.getElem_set_ne (by omega)]
    · rw [List.getD_eq_default _ [] (by rw [List.length_set]; exact hge)]
      rw [List.getD_eq_default _ [] hge]

/-- A well-formed grid is recovered from its in-range cell reads. -/
theorem Board.grid_eq_ofCells (b : Board) :
    (List.range b.size).map (fun r => (List.range b.size).map (fun c => b.cell r c)) =
      b.grid := by
  apply List.ext_getElem
  · simp [b.hrows]
  · intro r h1 h2
    simp only [List.getElem_map, List.getElem_range]
    have hr : r < b.size := by simpa using h1
    apply List.ext_getElem
    · simp [b.hcols _ (List.getElem_mem h2)]
    · intro c hh1 hh2
      simp only [List.getElem_map, List.getElem_range]
      have hc : c < b.size := by simpa using hh1
      rw [Board.cell_eq_get b r c hr hc]
      simp [List.get_eq_getElem]

/-- Embeds `Board.getEmptyCells` (`src/js/ScoreManager.js` lines 278-288): all
positions holding `0`, in row-major order. -/
def Board.getEmptyCells (b : Board) : List (Nat × Nat) :=
  (List.range b.size).flatMap (fun row =>
    (List.range b.size).filterMap (fun col =>
      if b.cell row col = 0 then some (row, col) else none))

theorem Board.mem_getEmptyCells (b : Board) (p : Nat × Nat) :
    p ∈ b.getEmptyCells ↔ p.1 < b.size ∧ p.2 < b.size ∧ b.cell p.1 p.2 = 0 := by
  unfold Board.getEmptyCells
  simp only [List.mem_flatMap, List.mem_filterMap, List.mem_range]
  constructor
  · rintro ⟨r, hr, c, hc, hif⟩
    split at hif
    · cases hif; exact ⟨hr, hc, by assumption⟩
    · cases hif
  · rintro ⟨h1, h2, h3⟩
    exact ⟨p.1, h1, p.2, h2, by rw [if_pos h3]⟩

/-- Embeds `Board.isFull` (`src/js/ScoreManager.js` lines 302-304). -/
def Board.isFull (b : Board) : Bool :=
  b.getEmptyCells.length == 0

/-- Embeds `Board.clone` (`src/js/ScoreManager.js` lines 310-318): a fresh board
populated cell by cell from the original; on a well-formed board this is
the identity (`Board.clone_eq`). -/
def Board.clone (b : Board) : Board where
  size := b.size
  grid := (List.range b.size).map (fun r => (List.range b.size).map (fun c => b.cell r c))
  hrows := by simp
  hcols := by
    intro row hrow
    rcases List.mem_map.mp hrow with ⟨r, _, rfl⟩
    simp

theorem Board.clone_eq (b : Board) : b.clone = b :=
  Board.eq_of _ _ rfl (Board.grid_eq_ofCells b)

/-- Embeds `Board.equals` (`src/js/ScoreManager.js` lines 325-338): size check then
cell-wise comparison. -/
def Board.equals (b other : Board) : Bool :=
  b.size == other.size &&
    (List.range b.size).all (fun r =>
      (List.range b.size).all (fun c => b.cell r c == other.cell r c))

theorem Board.equals_self (b : Board) : b.equals b = true := by
  unfold Board.equals
  simp

/-- Embeds `Board.addRandomTile` (`src/js/ScoreManager.js` lines 262-272).
`pick` chooses the empty cell (the JS `Math.floor(Math.random()*len)`,
taken here modulo the number of empty cells) and `four` chooses the value
(`4` with probability 0.1, else `2`). Returns the updated board and the
success flag. -/
def Board.addRandomTile (b : Board) (pick : Nat) (four : Bool) : Board × Bool :=
  let emptyCells := b.getEmptyCells
  if emptyCells.length = 0 then
    (b, false)
  else
    let randomCell := emptyCells.getD (pick % emptyCells.length) (0, 0)
    let value := if four then 4 else 2
    (b.setCell randomCell.1 randomCell.2 value, true)

theorem Board.size_addRandomTile (b : Board) (pick : Nat) (four : Bool) :
    (b.addRandomTile pick four).1.size = b.size := by
  unfold Board.addRandomTile
  by_cases h : b.getEmptyCells.length = 0
  · simp [h]
  · simp [h, Board.size_setCell]

/-- Embeds `Board.initialize` (`src/js/ScoreManager.js` lines 229-231): reset the
grid to all zeros. -/
def Board.initGrid (b : Board) : Board where
  size := b.size
  grid := List.replicate b.size (List.replicate b.size 0)
  hrows := by simp
  hcols := by
    intro row hrow
    rw [List.eq_of_mem_replicate hrow]
    simp

/-- Result record of a move (`{moved, score}` objects returned by the
`MoveProcessor` move functions). -/
structure MoveResult where
  moved : Bool
  score : Nat
deriving DecidableEq, Repr

namespace MoveProcessor

/-- Embeds `MoveProcessor.mergeLine` (`src/unnamed/part_002` lines 1627-1646):
single left-to-right pass; equal adjacent elements merge into their double
(added to the score) and the scan jumps past both, so a merge result never
re-merges in the same pass. -/
def mergeLine : List Nat → List Nat × Nat
  | [] => ([], 0)
  | [x] => ([x], 0)
  | x :: y :: rest =>
    if x = y then
      let r := mergeLine rest
      (x * 2 :: r.1, x * 2 + r.2)
    else
      let r := mergeLine (y :: rest)
      (x :: r.1, r.2)

/-- The doubled values produced by the merges of one `mergeLine` pass
(the values the source adds to `score`), in order. -/
def mergedDoubles : List Nat → List Nat
  | [] => []
  | [_] => []
  | x :: y :: rest =>
    if x = y then x * 2 :: mergedDoubles rest
    else mergedDoubles (y :: rest)

/-- Left-aligned write-back of a merged line into a row of `size` cells:
cell `c` receives `merged[c]` when in range, else `0` (the
`col < merged.line.length ? merged.line[col] : 0` padding in `moveLeft`). -/
def padRow (size : Nat) (m : List Nat) : List Nat :=
  (List.range size).map (fun c => m.getD c 0)

theorem length_padRow (size : Nat) (m : List Nat) : (padRow size m).length = size := by
  simp [padRow]

/-- The per-row body of `MoveProcessor.moveLeft`: collect the non-zero
values, merge them, pad the merged line back to `size` cells; the row's
`moved` flag records whether any cell changed. -/
def moveLeftRow (size : Nat) (row : List Nat) : List Nat × Bool × Nat :=
  let line := row.filter (fun v => v != 0)
  let merged := mergeLine line
  let newRow := padRow size merged.1
  (newRow, (List.range size).any (fun c => row.getD c 0 != merged.1.getD c 0), merged.2)

/-- Embeds `MoveProcessor.moveLeft` (`src/unnamed/part_002` lines 1522-1551),
in state-passing form: the returned board is the mutated board, `moved`
is true iff some cell changed, `score` totals the rows' merge scores. -/
def moveLeft (board : Board) : Board × MoveResult :=
  let rows := board.grid.map (fun row => moveLeftRow board.size row)
  (⟨board.size, rows.map (·.1),
      by simp [rows, board.hrows],
      by
        intro row hrow
        simp only [rows, List.map_map, List.mem_map] at hrow
        rcases hrow with ⟨r, _, rfl⟩
        simp [moveLeftRow, length_padRow]⟩,
    ⟨rows.any (·.2.1), (rows.map (·.2.2)).sum⟩)

/-- Embeds `MoveProcessor.reverseRows` (`src/unnamed/part_002` lines 1652-1660):
the in-place half-swap loop whose net effect reverses every row. -/
def reverseRows (board : Board) : Board where
  size := board.size
  grid := board.grid.map List.reverse
  hrows := by simp [board.hrows]
  hcols := by
    intro row hrow
    rcases List.mem_map.mp hrow with ⟨r, hr, rfl⟩
    simp [board.hcols r hr]

/-- Embeds `MoveProcessor.transpose` (`src/unnamed/part_002` lines 1666-1675):
the in-place diagonal-swap loop whose net effect transposes the square
matrix: cell `(r, c)` of the result is cell `(c, r)` of the input. -/
def transpose (board : Board) : Board where
  size := board.size
  grid := (List.range board.size).map (fun r =>
    (List.range board.size).map (fun c => board.cell c r))
  hrows := by simp
  hcols := by
    intro row hrow
    rcases List.mem_map.mp hrow with ⟨r, _, rfl⟩
    simp

/-- Embeds `MoveProcessor.moveRight` (`src/unnamed/part_002` lines 1558-1564):
reverse each row, move left, reverse back. -/
def moveRight (board : Board) : Board × MoveResult :=
  let b1 := reverseRows board
  let r := moveLeft b1
  (reverseRows r.1, r.2)

/-- Embeds `MoveProcessor.moveUp` (`src/unnamed/part_002` lines 1571-1577):
transpose, move left, transpose back. -/
def moveUp (board : Board) : Board × MoveResult :=
  let b1 := transpose board
  let r := moveLeft b1
  (transpose r.1, r.2)

/-- Embeds `MoveProcessor.moveDown` (`src/unnamed/part_002` lines 1584-1590):
transpose, move right, transpose back. -/
def moveDown (board : Board) : Board × MoveResult :=
  let b1 := transpose board
  let r := moveRight b1
  (transpose r.1, r.2)

/-- Embeds `MoveProcessor.canMove` (`src/unnamed/part_002` lines 1598-1620), in
state-passing form: the move probe runs on a clone, so the first component
(the caller's board after the call) is the untouched input board; the
second is the probe's `moved` flag (`false` for an unknown direction). -/
def canMove (board : Board) (direction : String) : Board × Bool :=
  let testBoard := board.clone
  if direction = "left" then (board, (moveLeft testBoard).2.moved)
  else if direction = "right" then (board, (moveRight testBoard).2.moved)
  else if direction = "up" then (board, (moveUp testBoard).2.moved)
  else if direction = "down" then (board, (moveDown testBoard).2.moved)
  else (board, false)

theorem size_moveLeft (b : Board) : (moveLeft b).1.size = b.size := rfl

theorem size_moveRight (b : Board) : (moveRight b).1.size = b.size := rfl

theorem size_moveUp (b : Board) : (moveUp b).1.size = b.size := rfl

theorem size_moveDown (b : Board) : (moveDown b).1.size = b.size := rfl

end MoveProcessor

/-- The one-step rollback snapshot stored by `GameEngine.saveState`
(`src/unnamed/part_002` lines 1301-1309). -/
structure PrevState where
  board : Board
  score : Nat
  isWin : Bool
  isGameOver : Bool
  moveCount : Nat

/-- Embeds `GameEngine` (`src/unnamed/part_002` lines 1009-1031); the
error-accounting fields (`errorCount`, `maxErrors`, `lastError`), which
only change on JS exception paths that cannot arise in this typed model,
are omitted. `hsize` records the constructor's `board = new Board(size)`
shape invariant, preserved by every operation. -/
structure GameEngine where
  size : Nat
  board : Board
  score : Nat
  isWin : Bool
  isGameOver : Bool
  moveCount : Nat
  previousState : Option PrevState
  hsize : board.size = size

namespace GameEngine

/-- Embeds `GameEngine.validateSize` (`src/unnamed/part_002` lines 1037-1041):
sizes outside 2..10 are rejected (integrality is carried by `Nat`). -/
def validateSize (size : Nat) : Bool :=
  2 ≤ size && size ≤ 10

/-- Embeds `GameEngine.validateDirection` (`src/unnamed/part_002` lines 1181-1184). -/
def validateDirection (direction : String) : Bool :=
  direction = "left" || direction = "right" || direction = "up" || direction = "down"

/-- The `GameEngine` constructor (`src/unnamed/part_002` lines 1014-1031):
`none` models the thrown error for an invalid size. -/
def new (size : Nat) : Option GameEngine :=
  if validateSize size then
    some
      { size := size
        board :=
          ⟨size, List.replicate size (List.replicate size 0), by simp, by
            intro row hrow
            rw [List.eq_of_mem_replicate hrow]
            simp⟩
        score := 0
        isWin := false
        isGameOver := false
        moveCount := 0
        previousState := none
        hsize := rfl }
  else
    none

/-- Embeds `GameEngine.saveState` (`src/unnamed/part_002` lines 1301-1309). -/
def saveState (g : GameEngine) : GameEngine :=
  { g with previousState := some ⟨g.board.clone, g.score, g.isWin, g.isGameOver, g.moveCount⟩ }

/-- Does any cell hold the winning value 2048?  The scan performed by
`GameEngine.checkWinCondition` (`src/unnamed/part_002` lines 1207-1218);
the loop bound `this.size` equals `board.size` by `hsize`. -/
def hasWinTile (b : Board) : Bool :=
  (List.range b.size).any (fun row =>
    (List.range b.size).any (fun col => b.cell row col == 2048))

/-- Embeds `GameEngine.checkWinCondition` (`src/unnamed/part_002` lines 1207-1218). -/
def checkWinCondition (g : GameEngine) : GameEngine :=
  if g.isWin then g
  else if hasWinTile g.board then { g with isWin := true }
  else g

/-- Embeds `GameEngine.checkGameOverCondition` (`src/unnamed/part_002` lines
1232-1249): lost iff not won, the grid is full, and no direction can move. -/
def checkGameOverCondition (g : GameEngine) : GameEngine :=
  if g.isWin then g
  else if g.board.isFull = false then g
  else if (["left", "right", "up", "down"]).any
      (fun d => (MoveProcessor.canMove g.board d).2) then g
  else { g with isGameOver := true }

/-- Embeds `GameEngine.canMove` (`src/unnamed/part_002` lines 1225-1227). -/
def canMove (g : GameEngine) (direction : String) : Bool :=
  (MoveProcessor.canMove g.board direction).2

/-- The successful-switch tail of `GameEngine.move` (`src/unnamed/part_002`
lines 1149-1168): `br` is the processor's result on the engine's board;
on `moved` the score and move count are updated, a random tile is spawned,
and the win/lose checks run. -/
def step (g1 : GameEngine) (br : Board × MoveResult) (hs : br.1.size = g1.size)
    (pick : Nat) (four : Bool) : GameEngine × Bool :=
  if br.2.moved then
    let g4 : GameEngine :=
      ⟨g1.size, (br.1.addRandomTile pick four).1, g1.score + br.2.score,
        g1.isWin, g1.isGameOver, g1.moveCount + 1, g1.previousState,
        (Board.size_addRandomTile ..).trans hs⟩
    (checkGameOverCondition (checkWinCondition g4), true)
  else
    (⟨g1.size, br.1, g1.score, g1.isWin, g1.isGameOver, g1.moveCount,
        g1.previousState, hs⟩, false)

/-- Embeds `GameEngine.move` (`src/unnamed/part_002` lines 1116-1174).
`validateGameState` and `validateMoveResult`, runtime type checks that
cannot fail in this typed model, are omitted; `pick`/`four` carry the
spawn randomness through to `Board.addRandomTile`. -/
def move (g : GameEngine) (direction : String) (pick : Nat) (four : Bool) :
    GameEngine × Bool :=
  if validateDirection direction = false then (g, false)
  else if g.isGameOver || g.isWin then (g, false)
  else
    let g1 := saveState g
    if direction = "left" then
      step g1 (MoveProcessor.moveLeft g1.board) ((MoveProcessor.size_moveLeft _).trans g1.hsize) pick four
    else if direction = "right" then
      step g1 (MoveProcessor.moveRight g1.board) ((MoveProcessor.size_moveRight _).trans g1.hsize) pick four
    else if direction = "up" then
      step g1 (MoveProcessor.moveUp g1.board) ((MoveProcessor.size_moveUp _).trans g1.hsize) pick four
    else if direction = "down" then
      step g1 (MoveProcessor.moveDown g1.board) ((MoveProcessor.size_moveDown _).trans g1.hsize) pick four
    else (g1, false)

/-- Embeds `GameEngine.initializeGame` (`src/unnamed/part_002` lines 1046-1068)
on its success path: clear the board, reset score/flags/count, spawn two
random tiles (randomness passed in as `p1/f1`, `p2/f2`). -/
def initGame (g : GameEngine) (p1 p2 : Nat) (f1 f2 : Bool) : GameEngine :=
  let b0 := g.board.initGrid
  let b1 := (b0.addRandomTile p1 f1).1
  let b2 := (b1.addRandomTile p2 f2).1
  { size := g.size
    board := b2
    score := 0
    isWin := false
    isGameOver := false
    moveCount := 0
    previousState := none
    hsize := by
      simp only [b2, b1, b0]
      rw [Board.size_addRandomTile, Board.size_addRandomTile]
      exact g.hsize }

/-- Embeds `GameEngine.restart` (`src/unnamed/part_002` lines 1254-1256):
re-runs the initialization. -/
def restart (g : GameEngine) (p1 p2 : Nat) (f1 f2 : Bool) : GameEngine :=
  initGame g p1 p2 f1 f2

/-- Number of non-zero cells of the board (the tile count checked by
`GameEngine.validateInitialization`, `src/unnamed/part_002` lines
1090-1109). -/
def tileCount (b : Board) : Nat :=
  ((List.range b.size).map (fun row =>
    ((List.range b.size).map (fun col => b.cell row col)).countP (fun v => v != 0))).sum

end GameEngine

namespace MoveProcessor

theorem mergeLine_cons_cons (x y : Nat) (rest : List Nat) :
    mergeLine (x :: y :: rest) =
      if x = y then (x * 2 :: (mergeLine rest).1, x * 2 + (mergeLine rest).2)
      else (x :: (mergeLine (y :: rest)).1, (mergeLine (y :: rest)).2) := rfl

theorem mergedDoubles_cons_cons (x y : Nat) (rest : List Nat) :
    mergedDoubles (x :: y :: rest) =
      if x = y then x * 2 :: mergedDoubles rest
      else mergedDoubles (y :: rest) := rfl

theorem mergeLine_sum : ∀ l : List Nat, (mergeLine l).1.sum = l.sum
  | [] => by simp [mergeLine]
  | [x] => by simp [mergeLine]
  | x :: y :: rest => by
    by_cases h : x = y
    · subst h
      have ih := mergeLine_sum rest
      rw [mergeLine_cons_cons, if_pos rfl]
      simp only [List.sum_cons, ih]
      omega
    · have ih := mergeLine_sum (y :: rest)
      rw [mergeLine_cons_cons, if_neg h]
      simp only [List.sum_cons] at ih ⊢
      omega

theorem mergeLine_length_le : ∀ l : List Nat, (mergeLine l).1.length ≤ l.length
  | [] => by simp [mergeLine]
  | [x] => by simp [mergeLine]
  | x :: y :: rest => by
    by_cases h : x = y
    · have ih := mergeLine_length_le rest
      rw [mergeLine_cons_cons, if_pos h]
      simp only [List.length_cons]
      omega
    · have ih := mergeLine_length_le (y :: rest)
      rw [mergeLine_cons_cons, if_neg h]
      simp only [List.length_cons] at ih ⊢
      omega

theorem mergeLine_nonzero : ∀ l : List Nat, (∀ x ∈ l, x ≠ 0) →
    ∀ z ∈ (mergeLine l).1, z ≠ 0
  | [] => by simp [mergeLine]
  | [x] => by simp [mergeLine]
  | x :: y :: rest => by
    intro hl z hz
    by_cases h : x = y
    · rw [mergeLine_cons_cons] at hz
      simp only [if_pos h, List.mem_cons] at hz
      rcases hz with rfl | hz
      · have : x ≠ 0 := hl x (by simp)
        omega
      · exact mergeLine_nonzero rest (fun a ha => hl a (by simp [ha])) z hz
    · rw [mergeLine_cons_cons] at hz
      simp only [if_neg h, List.mem_cons] at hz
      rcases hz with rfl | hz
      · exact hl z (by simp)
      · exact mergeLine_nonzero (y :: rest)
          (fun a ha => hl a (by simp only [List.mem_cons] at ha ⊢; tauto)) z hz

/-- No two adjacent entries of the list are equal. -/
def noAdjacentEqual : List Nat → Bool
  | [] => true
  | [_] => true
  | x :: y :: rest => x != y && noAdjacentEqual (y :: rest)

/-- A line with no two adjacent equal values passes through `mergeLine`
unchanged with score zero. -/
theorem mergeLine_of_noAdj : ∀ l : List Nat, noAdjacentEqual l = true →
    mergeLine l = (l, 0)
  | [] => by simp [mergeLine]
  | [x] => by simp [mergeLine]
  | x :: y :: rest => by
    intro hch
    simp only [noAdjacentEqual, Bool.and_eq_true, bne_iff_ne] at hch
    have ih := mergeLine_of_noAdj (y :: rest) hch.2
    rw [mergeLine_cons_cons, if_neg hch.1, ih]

theorem mergeLine_score : ∀ l : List Nat, (mergeLine l).2 = (mergedDoubles l).sum
  | [] => by simp [mergeLine, mergedDoubles]
  | [x] => by simp [mergeLine, mergedDoubles]
  | x :: y :: rest => by
    by_cases h : x = y
    · have ih := mergeLine_score rest
      rw [mergeLine_cons_cons, if_pos h, mergedDoubles_cons_cons, if_pos h]
      simp only [List.sum_cons, ih]
    · have ih := mergeLine_score (y :: rest)
      rw [mergeLine_cons_cons, if_neg h, mergedDoubles_cons_cons, if_neg h]
      exact ih

theorem padRow_nil (n : Nat) : padRow n [] = List.replicate n 0 := by
  unfold padRow
  induction n with
  | zero => simp
  | succ k ih =>
    rw [List.range_succ, List.map_append, ih, List.replicate_succ']
    simp

theorem padRow_eq_append : ∀ (m : List Nat) (n : Nat), m.length ≤ n →
    padRow n m = m ++ List.replicate (n - m.length) 0
  | [], n => by
    intro _
    simpa using padRow_nil n
  | a :: m, n => by
    intro hlen
    cases n with
    | zero => simp at hlen
    | succ k =>
      simp only [padRow]
      rw [List.range_succ_eq_map]
      simp only [List.map_cons, List.map_map]
      have hk : m.length ≤ k := by simpa using hlen
      have ih := padRow_eq_append m k hk
      simp only [padRow] at ih
      have hcomp : (List.range k).map ((fun c => (a :: m).getD c 0) ∘ Nat.succ) =
          (List.range k).map (fun c => m.getD c 0) := by
        apply List.map_congr_left
        intro c _
        simp [List.getD_cons_succ]
      rw [hcomp, ih]
      simp [List.getD_cons_zero]

theorem getD_padRow (n : Nat) (m : List Nat) (c : Nat) (hc : c < n) :
    (padRow n m).getD c 0 = m.getD c 0 := by
  unfold padRow
  rw [List.getD_eq_getElem _ 0 (by simpa using hc)]
  simp

theorem filter_padRow (n : Nat) (m : List Nat) (hlen : m.length ≤ n)
    (hnz : ∀ x ∈ m, x ≠ 0) :
    (padRow n m).filter (fun v => v != 0) = m := by
  rw [padRow_eq_append m n hlen, List.filter_append]
  have h1 : m.filter (fun v => v != 0) = m := by
    apply List.filter_eq_self.mpr
    intro a ha
    simpa using hnz a ha
  have h2 : (List.replicate (n - m.length) (0 : Nat)).filter (fun v => v != 0) = [] := by
    apply List.filter_eq_nil_iff.mpr
    intro a ha
    rw [List.eq_of_mem_replicate ha]
    simp
  rw [h1, h2, List.append_nil]

theorem list_any_map {α β : Type} (l : List α) (f : α → β) (p : β → Bool) :
    (l.map f).any p = l.any (fun x => p (f x)) := by
  induction l with
  | nil => rfl
  | cons a t ih => simp [ih]

theorem moveLeft_grid (b : Board) :
    (moveLeft b).1.grid = b.grid.map (fun row => (moveLeftRow b.size row).1) := by
  simp [moveLeft, List.map_map, Function.comp]

theorem moveLeft_moved (b : Board) :
    (moveLeft b).2.moved = b.grid.any (fun row => (moveLeftRow b.size row).2.1) := by
  show (b.grid.map (fun row => moveLeftRow b.size row)).any (fun x => x.2.1) = _
  rw [list_any_map]

theorem moveLeft_score (b : Board) :
    (moveLeft b).2.score = (b.grid.map (fun row => (moveLeftRow b.size row).2.2)).sum := by
  simp [moveLeft, List.map_map, Function.comp_def]

theorem moveLeftRow_fst (n : Nat) (row : List Nat) :
    (moveLeftRow n row).1 = padRow n (mergeLine (row.filter (fun v => v != 0))).1 := rfl

theorem moveLeftRow_moved (n : Nat) (row : List Nat) :
    (moveLeftRow n row).2.1 =
      (List.range n).any
        (fun c => row.getD c 0 != (mergeLine (row.filter (fun v => v != 0))).1.getD c 0) := rfl

/-- A padded merged line whose non-zero part has no adjacent equal values
is a fixed point of the row move: the second pass reports no movement. -/
theorem moveLeftRow_padRow_stable (n : Nat) (m : List Nat) (hlen : m.length ≤ n)
    (hnz : ∀ x ∈ m, x ≠ 0) (hch : noAdjacentEqual m = true) :
    (moveLeftRow n (padRow n m)).2.1 = false := by
  rw [moveLeftRow_moved, filter_padRow n m hlen hnz, mergeLine_of_noAdj m hch]
  apply List.any_eq_false.mpr
  intro c hc
  rw [getD_padRow n m c (List.mem_range.mp hc)]
  simp

/-- A row whose move flag is `false` is written back unchanged. -/
theorem moveLeftRow_not_moved (n : Nat) (row : List Nat) (hrow : row.length = n)
    (h : (moveLeftRow n row).2.1 = false) : (moveLeftRow n row).1 = row := by
  rw [moveLeftRow_moved] at h
  rw [moveLeftRow_fst]
  have hall := List.any_eq_false.mp h
  apply List.ext_getElem
  · rw [length_padRow, hrow]
  · intro c hp h2
    have h1 : c < n := by rw [length_padRow] at hp; exact hp
    have hc := hall c (List.mem_range.mpr h1)
    have heq : row.getD c 0 = (mergeLine (row.filter (fun v => v != 0))).1.getD c 0 := by
      simpa using hc
    calc (padRow n (mergeLine (row.filter (fun v => v != 0))).1)[c]
        = (padRow n (mergeLine (row.filter (fun v => v != 0))).1).getD c 0 :=
          (List.getD_eq_getElem _ 0 hp).symm
      _ = (mergeLine (row.filter (fun v => v != 0))).1.getD c 0 :=
          getD_padRow n (mergeLine (row.filter (fun v => v != 0))).1 c h1
      _ = row.getD c 0 := heq.symm
      _ = row[c] := List.getD_eq_getElem row 0 h2

/-- Applying `moveLeft` with `moved = false` leaves the board unchanged. -/
theorem moveLeft_not_moved (b : Board) (h : (moveLeft b).2.moved = false) :
    (moveLeft b).1 = b := by
  apply Board.eq_of
  · rfl
  rw [moveLeft_grid]
  rw [moveLeft_moved] at h
  have hall := List.any_eq_false.mp h
  have : b.grid.map (fun row => (moveLeftRow b.size row).1) = b.grid.map id := by
    apply List.map_congr_left
    intro row hrow
    have := hall row hrow
    exact moveLeftRow_not_moved b.size row (b.hcols row hrow) (by simpa using this)
  rw [this, List.map_id]

theorem reverseRows_reverseRows (b : Board) : reverseRows (reverseRows b) = b := by
  apply Board.eq_of
  · rfl
  show (b.grid.map List.reverse).map List.reverse = b.grid
  rw [List.map_map]
  have : b.grid.map (List.reverse ∘ List.reverse) = b.grid.map id := by
    apply List.map_congr_left
    intro row _
    simp
  rw [this, List.map_id]

theorem cell_transpose (b : Board) (r c : Nat) (hr : r < b.size) (hc : c < b.size) :
    (transpose b).cell r c = b.cell c r := by
  show ((((List.range b.size).map
      (fun row => (List.range b.size).map (fun col => b.cell col row))).getD r []).getD c 0) = _
  rw [List.getD_eq_getElem _ [] (by simpa using hr)]
  simp only [List.getElem_map, List.getElem_range]
  rw [List.getD_eq_getElem _ 0 (by simpa using hc)]
  simp

theorem transpose_transpose (b : Board) : transpose (transpose b) = b := by
  apply Board.eq_of
  · rfl
  show (List.range b.size).map (fun r => (List.range b.size).map (fun c => (transpose b).cell c r)) = b.grid
  have hstep : (List.range b.size).map
      (fun r => (List.range b.size).map (fun c => (transpose b).cell c r)) =
      (List.range b.size).map (fun r => (List.range b.size).map (fun c => b.cell r c)) := by
    apply List.map_congr_left
    intro r hr
    apply List.map_congr_left
    intro c hc
    exact cell_transpose b c r (List.mem_range.mp hc) (List.mem_range.mp hr)
  rw [hstep, Board.grid_eq_ofCells]

theorem moveRight_not_moved (b : Board) (h : (moveRight b).2.moved = false) :
    (moveRight b).1 = b := by
  have hinner : (moveLeft (reverseRows b)).1 = reverseRows b :=
    moveLeft_not_moved (reverseRows b) h
  show reverseRows (moveLeft (reverseRows b)).1 = b
  rw [hinner, reverseRows_reverseRows]

theorem moveUp_not_moved (b : Board) (h : (moveUp b).2.moved = false) :
    (moveUp b).1 = b := by
  have hinner : (moveLeft (transpose b)).1 = transpose b :=
    moveLeft_not_moved (transpose b) h
  show transpose (moveLeft (transpose b)).1 = b
  rw [hinner, transpose_transpose]

theorem moveDown_not_moved (b : Board) (h : (moveDown b).2.moved = false) :
    (moveDown b).1 = b := by
  have hinner : (moveRight (transpose b)).1 = transpose b :=
    moveRight_not_moved (transpose b) h
  show transpose (moveRight (transpose b)).1 = b
  rw [hinner, transpose_transpose]

end MoveProcessor

/-- A 4×4 board whose first row is `[2,2,4,0]`: the first `moveLeft`
produces `[4,4,0,0]`, which the second `moveLeft` merges again. -/
def boardA : Board :=
  ⟨4, [[2, 2, 4, 0], [0, 0, 0, 0], [0, 0, 0, 0], [0, 0, 0, 0]], by decide, by decide⟩

/-- C1, counterexample: on the board with first row `[2,2,4,0]` the first
`moveLeft` yields first row `[4,4,0,0]` with `moved = true`, and the second
`moveLeft` also returns `moved = true` (the fresh 4 merges with the kept 4),
so `moveLeft` twice is not idempotent. -/
theorem moveLeft_twice_not_idempotent :
    (MoveProcessor.moveLeft boardA).2.moved = true ∧
    (MoveProcessor.moveLeft boardA).1.grid =
      [[4, 4, 0, 0], [0, 0, 0, 0], [0, 0, 0, 0], [0, 0, 0, 0]] ∧
    (MoveProcessor.moveLeft ((MoveProcessor.moveLeft boardA).1)).2.moved = true := by
  decide

/-- C1 (amended): a second `moveLeft` reports `moved = false` provided no
row of the first call's result contains two adjacent equal non-zero tiles;
in general a fresh merge may create such a pair and move again. -/
theorem moveLeft_twice_stable (b : Board)
    (h : ∀ row ∈ (MoveProcessor.moveLeft b).1.grid,
      MoveProcessor.noAdjacentEqual (row.filter (fun v => v != 0)) = true) :
    (MoveProcessor.moveLeft ((MoveProcessor.moveLeft b).1)).2.moved = false := by
  rw [MoveProcessor.moveLeft_moved]
  apply List.any_eq_false.mpr
  intro row2 hrow2
  suffices hs :
      (MoveProcessor.moveLeftRow b.size row2).2.1 = false by
    simpa using hs
  have hmem := hrow2
  rw [MoveProcessor.moveLeft_grid] at hmem
  rcases List.mem_map.mp hmem with ⟨row, hrowmem, rfl⟩
  rw [MoveProcessor.moveLeftRow_fst]
  apply MoveProcessor.moveLeftRow_padRow_stable
  · calc (MoveProcessor.mergeLine (row.filter (fun v => v != 0))).1.length
        ≤ (row.filter (fun v => v != 0)).length :=
          MoveProcessor.mergeLine_length_le _
      _ ≤ row.length := List.length_filter_le _ _
      _ = b.size := b.hcols row hrowmem
  · apply MoveProcessor.mergeLine_nonzero
    intro x hx
    have hmf := List.mem_filter.mp hx
    simpa using hmf.2
  · have hch := h _ hrow2
    rw [MoveProcessor.moveLeftRow_fst] at hch
    rwa [MoveProcessor.filter_padRow] at hch
    · calc (MoveProcessor.mergeLine (row.filter (fun v => v != 0))).1.length
          ≤ (row.filter (fun v => v != 0)).length :=
            MoveProcessor.mergeLine_length_le _
        _ ≤ row.length := List.length_filter_le _ _
        _ = b.size := b.hcols row hrowmem
    · apply MoveProcessor.mergeLine_nonzero
      intro x hx
      have hmf := List.mem_filter.mp hx
      simpa using hmf.2

/-- A 4×4 board whose first row `[2,4,2,0]` is already compacted with no
adjacent equal tiles. -/
def boardB : Board :=
  ⟨4, [[2, 4, 2, 0], [0, 0, 0, 0], [0, 0, 0, 0], [0, 0, 0, 0]], by decide, by decide⟩

/-- Witness for the amended C1 at a concrete board. -/
theorem moveLeft_twice_stable_witness :
    (MoveProcessor.moveLeft ((MoveProcessor.moveLeft boardB).1)).2.moved = false :=
  moveLeft_twice_stable boardB (by decide)

/-- C2: `MoveProcessor.canMove` probes on a clone, so the caller's board
after the call (the first component in this state-passing model) is the
input board itself, cell-wise equal to its pre-call clone. -/
theorem canMove_preserves_board (b : Board) (d : String) :
    (MoveProcessor.canMove b d).1 = b ∧
    b.equals (MoveProcessor.canMove b d).1 = true := by
  have h1 : (MoveProcessor.canMove b d).1 = b := by
    unfold MoveProcessor.canMove
    repeat' split
    all_goals rfl
  refine ⟨h1, ?_⟩
  rw [h1]
  exact Board.equals_self b

/-- C3: `mergeLine` on `[2,2,4]` gives `([4,4], 4)` and on `[2,2,2,2]`
gives `([4,4], 8)`: one left-to-right pass, no cascading re-merge of a
freshly produced 4. -/
theorem mergeLine_examples :
    MoveProcessor.mergeLine [2, 2, 4] = ([4, 4], 4) ∧
    MoveProcessor.mergeLine [2, 2, 2, 2] = ([4, 4], 8) := by
  decide

/-- A 4×4 board whose only non-zero row is `[2,0,2,0]`. -/
def boardC : Board :=
  ⟨4, [[2, 0, 2, 0], [0, 0, 0, 0], [0, 0, 0, 0], [0, 0, 0, 0]], by decide, by decide⟩

/-- C4: `moveRight` on the board whose only non-zero row is `[2,0,2,0]`
turns that row into `[0,0,0,4]` and returns `moved = true`, `score = 4`. -/
theorem moveRight_example :
    (MoveProcessor.moveRight boardC).1.grid =
      [[0, 0, 0, 4], [0, 0, 0, 0], [0, 0, 0, 0], [0, 0, 0, 0]] ∧
    (MoveProcessor.moveRight boardC).2 = ⟨true, 4⟩ := by
  decide

/-- C9: out-of-range reads return the `null` sentinel (`none`) and
out-of-range writes are no-ops. -/
theorem getCell_setCell_out_of_range (b : Board) (row col : Int) (value : Nat)
    (h : row < 0 ∨ (b.size : Int) ≤ row ∨ col < 0 ∨ (b.size : Int) ≤ col) :
    b.getCell row col = none ∧ b.setCell row col value = b := by
  constructor
  · unfold Board.getCell
    rw [if_pos h]
  · unfold Board.setCell
    rw [dif_neg]
    rintro ⟨a1, a2, a3, a4⟩
    rcases h with h | h | h | h <;> omega

/-- Witness for C9 at a concrete out-of-range access. -/
theorem getCell_setCell_out_of_range_witness :
    boardA.getCell (-1) 2 = none ∧ boardA.setCell (-1) 2 5 = boardA :=
  getCell_setCell_out_of_range boardA (-1) 2 5 (Or.inl (by decide))

namespace GameEngine

/-- The direction switch of `GameEngine.move` (`src/unnamed/part_002`
lines 1132-1147) as a function of the board: the processor result for a
valid direction, `none` for the unreachable `default` branch. -/
def processMove (b : Board) (direction : String) : Option (Board × MoveResult) :=
  if direction = "left" then some (MoveProcessor.moveLeft b)
  else if direction = "right" then some (MoveProcessor.moveRight b)
  else if direction = "up" then some (MoveProcessor.moveUp b)
  else if direction = "down" then some (MoveProcessor.moveDown b)
  else none

theorem saveState_board (g : GameEngine) : (saveState g).board = g.board := rfl

theorem saveState_size (g : GameEngine) : (saveState g).size = g.size := rfl

theorem saveState_score (g : GameEngine) : (saveState g).score = g.score := rfl

theorem saveState_isWin (g : GameEngine) : (saveState g).isWin = g.isWin := rfl

theorem saveState_isGameOver (g : GameEngine) : (saveState g).isGameOver = g.isGameOver := rfl

theorem saveState_moveCount (g : GameEngine) : (saveState g).moveCount = g.moveCount := rfl

theorem step_not_moved (g1 : GameEngine) (br : Board × MoveResult)
    (hs : br.1.size = g1.size) (pick : Nat) (four : Bool)
    (h : br.2.moved = false) :
    step g1 br hs pick four =
      (⟨g1.size, br.1, g1.score, g1.isWin, g1.isGameOver, g1.moveCount,
        g1.previousState, hs⟩, false) := by
  unfold step
  rw [if_neg (by simp [h])]

/-- A direction accepted by `validateDirection` is one of the four
direction strings. -/
theorem validateDirection_cases (direction : String)
    (h : validateDirection direction = true) :
    direction = "left" ∨ direction = "right" ∨ direction = "up" ∨ direction = "down" := by
  simp only [validateDirection, Bool.or_eq_true, decide_eq_true_eq] at h
  tauto

end GameEngine

/-- C5: `GameEngine.move` returns `false` and leaves the grid cells, score,
move count and both terminal flags unchanged — and spawns no tile — when
the direction string is invalid, or the game is already won or lost, or
the processor reports that no cell changed. -/
theorem move_rejects (g : GameEngine) (direction : String) (pick : Nat) (four : Bool)
    (h : GameEngine.validateDirection direction = false ∨ g.isWin = true ∨
      g.isGameOver = true ∨
      (∀ br : Board × MoveResult,
        GameEngine.processMove g.board direction = some br → br.2.moved = false)) :
    (g.move direction pick four).2 = false ∧
    (g.move direction pick four).1.board = g.board ∧
    (g.move direction pick four).1.score = g.score ∧
    (g.move direction pick four).1.moveCount = g.moveCount ∧
    (g.move direction pick four).1.isWin = g.isWin ∧
    (g.move direction pick four).1.isGameOver = g.isGameOver := by
  by_cases hv : GameEngine.validateDirection direction = false
  · simp only [GameEngine.move, if_pos hv]
    simp
  · have hvt : GameEngine.validateDirection direction = true := by
      revert hv
      cases GameEngine.validateDirection direction <;> simp
    by_cases hterm : (g.isGameOver || g.isWin) = true
    · simp only [GameEngine.move, if_neg hv, if_pos hterm]
      simp
    · have hno : ∀ br : Board × MoveResult,
          GameEngine.processMove g.board direction = some br → br.2.moved = false := by
        rcases h with h | h | h | h
        · rw [h] at hvt; cases hvt
        · exact absurd (by simp [h]) hterm
        · exact absurd (by simp [h]) hterm
        · exact h
      rcases GameEngine.validateDirection_cases direction hvt with rfl | rfl | rfl | rfl
      · have hml : (MoveProcessor.moveLeft g.board).2.moved = false :=
          hno _ (by rfl)
        have hb : (MoveProcessor.moveLeft g.board).1 = g.board :=
          MoveProcessor.moveLeft_not_moved _ hml
        have hml' :
            (MoveProcessor.moveLeft (GameEngine.saveState g).board).2.moved = false := hml
        simp only [GameEngine.move, if_neg hv, if_neg hterm, if_pos rfl]
        rw [GameEngine.step_not_moved _ _ _ _ _ hml']
        exact ⟨rfl, hb, rfl, rfl, rfl, rfl⟩
      · have hml : (MoveProcessor.moveRight g.board).2.moved = false :=
          hno _ (by rfl)
        have hb : (MoveProcessor.moveRight g.board).1 = g.board :=
          MoveProcessor.moveRight_not_moved _ hml
        have hml' :
            (MoveProcessor.moveRight (GameEngine.saveState g).board).2.moved = false := hml
        simp only [GameEngine.move, if_neg hv, if_neg hterm, if_pos rfl]
        rw [GameEngine.step_not_moved _ _ _ _ _ hml']
        exact ⟨rfl, hb, rfl, rfl, rfl, rfl⟩
      · have hml : (MoveProcessor.moveUp g.board).2.moved = false :=
          hno _ (by rfl)
        have hb : (MoveProcessor.moveUp g.board).1 = g.board :=
          MoveProcessor.moveUp_not_moved _ hml
        have hml' :
            (MoveProcessor.moveUp (GameEngine.saveState g).board).2.moved = false := hml
        simp only [GameEngine.move, if_neg hv, if_neg hterm, if_pos rfl]
        rw [GameEngine.step_not_moved _ _ _ _ _ hml']
        exact ⟨rfl, hb, rfl, rfl, rfl, rfl⟩
      · have hml : (MoveProcessor.moveDown g.board).2.moved = false :=
          hno _ (by rfl)
        have hb : (MoveProcessor.moveDown g.board).1 = g.board :=
          MoveProcessor.moveDown_not_moved _ hml
        have hml' :
            (MoveProcessor.moveDown (GameEngine.saveState g).board).2.moved = false := hml
        simp only [GameEngine.move, if_neg hv, if_neg hterm, if_pos rfl]
        rw [GameEngine.step_not_moved _ _ _ _ _ hml']
        exact ⟨rfl, hb, rfl, rfl, rfl, rfl⟩

namespace GameEngine

theorem checkWinCondition_board (g : GameEngine) :
    (checkWinCondition g).board = g.board := by
  unfold checkWinCondition
  repeat' split
  all_goals rfl

theorem checkWinCondition_isGameOver (g : GameEngine) :
    (checkWinCondition g).isGameOver = g.isGameOver := by
  unfold checkWinCondition
  repeat' split
  all_goals rfl

theorem checkWinCondition_isWin (g : GameEngine) (h : g.isWin = false) :
    (checkWinCondition g).isWin = hasWinTile g.board := by
  unfold checkWinCondition
  rw [if_neg (by simp [h])]
  by_cases hw : hasWinTile g.board = true
  · rw [if_pos hw, hw]
  · have hw' : hasWinTile g.board = false := by
      revert hw; cases hasWinTile g.board <;> simp
    rw [if_neg (by simp [hw']), hw']
    exact h

theorem checkGameOverCondition_board (g : GameEngine) :
    (checkGameOverCondition g).board = g.board := by
  unfold checkGameOverCondition
  repeat' split
  all_goals rfl

theorem checkGameOverCondition_isWin (g : GameEngine) :
    (checkGameOverCondition g).isWin = g.isWin := by
  unfold checkGameOverCondition
  repeat' split
  all_goals rfl

/-- The loss flag set by `checkGameOverCondition` on a not-yet-lost state:
true exactly when not won, the board is full, and no direction can move. -/
theorem checkGameOverCondition_isGameOver_iff (g : GameEngine)
    (hG : g.isGameOver = false) :
    ((checkGameOverCondition g).isGameOver = true ↔
      (g.isWin = false ∧ g.board.isFull = true ∧
        ∀ d ∈ (["left", "right", "up", "down"] : List String),
          (MoveProcessor.canMove g.board d).2 = false)) := by
  unfold checkGameOverCondition
  by_cases hw : g.isWin = true
  · rw [if_pos hw]
    simp [hG, hw]
  · have hw' : g.isWin = false := by revert hw; cases g.isWin <;> simp
    rw [if_neg (by simp [hw'])]
    by_cases hf : g.board.isFull = false
    · rw [if_pos hf]
      simp [hG, hf]
    · have hf' : g.board.isFull = true := by revert hf; cases g.board.isFull <;> simp
      rw [if_neg (by simp [hf'])]
      by_cases hany : (["left", "right", "up", "down"] : List String).any
          (fun d => (MoveProcessor.canMove g.board d).2) = true
      · rw [if_pos hany, hG]
        rw [List.any_eq_true] at hany
        rcases hany with ⟨d, hd, hcm⟩
        constructor
        · intro hcon
          cases hcon
        · intro hall
          rw [hall.2.2 d hd] at hcm
          cases hcm
      · have hany' : (["left", "right", "up", "down"] : List String).any
            (fun d => (MoveProcessor.canMove g.board d).2) = false := by
          revert hany
          cases (["left", "right", "up", "down"] : List String).any
            (fun d => (MoveProcessor.canMove g.board d).2) <;> simp
        rw [if_neg (by simp [hany'])]
        constructor
        · intro _
          refine ⟨hw', hf', fun d hd => ?_⟩
          have hne := List.any_eq_false.mp hany' d hd
          revert hne
          cases (MoveProcessor.canMove g.board d).2 <;> simp
        · intro _
          rfl

theorem step_moved (g1 : GameEngine) (br : Board × MoveResult)
    (hs : br.1.size = g1.size) (pick : Nat) (four : Bool)
    (h : br.2.moved = true) :
    step g1 br hs pick four =
      (checkGameOverCondition (checkWinCondition
        ⟨g1.size, (br.1.addRandomTile pick four).1, g1.score + br.2.score,
          g1.isWin, g1.isGameOver, g1.moveCount + 1, g1.previousState,
          (Board.size_addRandomTile ..).trans hs⟩), true) := by
  unfold step
  rw [if_pos h]

/-- An accepted move comes from a non-terminal state and ends in the
post-check state of some intermediate engine with both flags still clear. -/
theorem move_true_parts (g : GameEngine) (direction : String) (pick : Nat) (four : Bool)
    (h : (g.move direction pick four).2 = true) :
    g.isWin = false ∧ g.isGameOver = false ∧
    ∃ g4 : GameEngine, g4.isWin = false ∧ g4.isGameOver = false ∧
      (g.move direction pick four).1 =
        checkGameOverCondition (checkWinCondition g4) := by
  by_cases hv : validateDirection direction = false
  · simp only [move, if_pos hv] at h
    cases h
  · by_cases hterm : (g.isGameOver || g.isWin) = true
    · simp only [move, if_neg hv, if_pos hterm] at h
      cases h
    · have hflags : g.isGameOver = false ∧ g.isWin = false := by
        revert hterm
        cases g.isGameOver <;> cases g.isWin <;> simp
      have hvt : validateDirection direction = true := by
        revert hv; cases validateDirection direction <;> simp
      refine ⟨hflags.2, hflags.1, ?_⟩
      rcases validateDirection_cases direction hvt with rfl | rfl | rfl | rfl
      all_goals
        simp only [move, if_neg hv, if_neg hterm] at h ⊢
      case neg.inl =>
        rw [if_pos trivial] at h ⊢
        by_cases hm : (MoveProcessor.moveLeft (saveState g).board).2.moved = true
        · rw [step_moved _ _ _ _ _ hm] at h ⊢
          refine ⟨_, ?_, ?_, rfl⟩
          · exact hflags.2
          · exact hflags.1
        · have hm' : (MoveProcessor.moveLeft (saveState g).board).2.moved = false := by
            revert hm
            cases (MoveProcessor.moveLeft (saveState g).board).2.moved <;> simp
          rw [step_not_moved _ _ _ _ _ hm'] at h
          cases h
      case neg.inr.inl =>
        rw [if_pos trivial] at h ⊢
        by_cases hm : (MoveProcessor.moveRight (saveState g).board).2.moved = true
        · rw [step_moved _ _ _ _ _ hm] at h ⊢
          refine ⟨_, ?_, ?_, rfl⟩
          · exact hflags.2
          · exact hflags.1
        · have hm' : (MoveProcessor.moveRight (saveState g).board).2.moved = false := by
            revert hm
            cases (MoveProcessor.moveRight (saveState g).board).2.moved <;> simp
          rw [step_not_moved _ _ _ _ _ hm'] at h
          cases h
      case neg.inr.inr.inl =>
        rw [if_pos trivial] at h ⊢
        by_cases hm : (MoveProcessor.moveUp (saveState g).board).2.moved = true
        · rw [step_moved _ _ _ _ _ hm] at h ⊢
          refine ⟨_, ?_, ?_, rfl⟩
          · exact hflags.2
          · exact hflags.1
        · have hm' : (MoveProcessor.moveUp (saveState g).board).2.moved = false := by
            revert hm
            cases (MoveProcessor.moveUp (saveState g).board).2.moved <;> simp
          rw [step_not_moved _ _ _ _ _ hm'] at h
          cases h
      case neg.inr.inr.inr =>
        rw [if_pos trivial] at h ⊢
        by_cases hm : (MoveProcessor.moveDown (saveState g).board).2.moved = true
        · rw [step_moved _ _ _ _ _ hm] at h ⊢
          refine ⟨_, ?_, ?_, rfl⟩
          · exact hflags.2
          · exact hflags.1
        · have hm' : (MoveProcessor.moveDown (saveState g).board).2.moved = false := by
            revert hm
            cases (MoveProcessor.moveDown (saveState g).board).2.moved <;> simp
          rw [step_not_moved _ _ _ _ _ hm'] at h
          cases h

/-- A won engine rejects every move without changing state. -/
theorem move_of_isWin (g : GameEngine) (h : g.isWin = true)
    (d : String) (p : Nat) (f : Bool) : g.move d p f = (g, false) := by
  unfold move
  by_cases hv : validateDirection d = false
  · rw [if_pos hv]
  · rw [if_neg hv, if_pos (by simp [h])]

end GameEngine

/-- A fresh engine holding `boardB` (first row `[2,4,2,0]`). -/
def engineB : GameEngine :=
  ⟨4, boardB, 0, false, false, 0, none, rfl⟩

/-- C7: if a move is accepted and afterwards some cell holds 2048, the win
flag is set, and from then on every `move` call returns `false` with the
state unchanged (until `restart` reinitializes). -/
theorem win_flag_locks (g : GameEngine) (direction : String) (pick : Nat) (four : Bool)
    (h : (g.move direction pick four).2 = true)
    (hwin : GameEngine.hasWinTile (g.move direction pick four).1.board = true) :
    (g.move direction pick four).1.isWin = true ∧
    ∀ (d : String) (p : Nat) (f : Bool),
      ((g.move direction pick four).1).move d p f = ((g.move direction pick four).1, false) := by
  obtain ⟨hW, hG, g4, h4W, h4G, heq⟩ := GameEngine.move_true_parts g direction pick four h
  rw [heq] at hwin ⊢
  have hboard :
      (GameEngine.checkGameOverCondition (GameEngine.checkWinCondition g4)).board =
        g4.board := by
    rw [GameEngine.checkGameOverCondition_board, GameEngine.checkWinCondition_board]
  rw [hboard] at hwin
  have hisWin :
      (GameEngine.checkGameOverCondition (GameEngine.checkWinCondition g4)).isWin = true := by
    rw [GameEngine.checkGameOverCondition_isWin, GameEngine.checkWinCondition_isWin _ h4W, hwin]
  exact ⟨hisWin, fun d p f => GameEngine.move_of_isWin _ hisWin d p f⟩

/-- A 4×4 board whose first row is `[1024,1024,0,0]`: one `moveLeft` away
from producing a 2048 tile. -/
def boardD : Board :=
  ⟨4, [[1024, 1024, 0, 0], [0, 0, 0, 0], [0, 0, 0, 0], [0, 0, 0, 0]], by decide, by decide⟩

/-- A fresh engine holding `boardD`. -/
def engineD : GameEngine :=
  ⟨4, boardD, 0, false, false, 0, none, rfl⟩

/-- Witness for C7: merging the two 1024 tiles wins and locks the engine. -/
theorem win_flag_locks_witness :
    (engineD.move "left" 0 false).1.isWin = true ∧
    ∀ (d : String) (p : Nat) (f : Bool),
      ((engineD.move "left" 0 false).1).move d p f = ((engineD.move "left" 0 false).1, false) :=
  win_flag_locks engineD "left" 0 false (by decide) (by decide)

/-- C8: after an accepted move from a non-terminal state, the game-over
flag is set exactly when the win condition fails, the grid is full, and
`canMove` is false for all four directions. -/
theorem game_over_iff (g : GameEngine) (direction : String) (pick : Nat) (four : Bool)
    (hW : g.isWin = false) (hG : g.isGameOver = false)
    (h : (g.move direction pick four).2 = true) :
    ((g.move direction pick four).1.isGameOver = true ↔
      (GameEngine.hasWinTile ((g.move direction pick four).1.board) = false ∧
       ((g.move direction pick four).1.board).isFull = true ∧
       ∀ d ∈ (["left", "right", "up", "down"] : List String),
         (MoveProcessor.canMove ((g.move direction pick four).1.board) d).2 = false)) := by
  obtain ⟨_, _, g4, h4W, h4G, heq⟩ := GameEngine.move_true_parts g direction pick four h
  rw [heq]
  have hboard :
      (GameEngine.checkGameOverCondition (GameEngine.checkWinCondition g4)).board =
        g4.board := by
    rw [GameEngine.checkGameOverCondition_board, GameEngine.checkWinCondition_board]
  rw [hboard]
  have hgo := GameEngine.checkGameOverCondition_isGameOver_iff
    (GameEngine.checkWinCondition g4)
    (by rw [GameEngine.checkWinCondition_isGameOver]; exact h4G)
  rw [GameEngine.checkWinCondition_board] at hgo
  rw [GameEngine.checkWinCondition_isWin _ h4W] at hgo
  exact hgo

/-- A 4×4 board whose first row is `[2,2,0,0]`. -/
def boardE : Board :=
  ⟨4, [[2, 2, 0, 0], [0, 0, 0, 0], [0, 0, 0, 0], [0, 0, 0, 0]], by decide, by decide⟩

/-- A fresh engine holding `boardE`. -/
def engineE : GameEngine :=
  ⟨4, boardE, 0, false, false, 0, none, rfl⟩

/-- Witness for C8 at a concrete accepted move (the result is not full, so
both sides of the equivalence are false). -/
theorem game_over_iff_witness :
    ((engineE.move "left" 0 false).1.isGameOver = true ↔
      (GameEngine.hasWinTile ((engineE.move "left" 0 false).1.board) = false ∧
       ((engineE.move "left" 0 false).1.board).isFull = true ∧
       ∀ d ∈ (["left", "right", "up", "down"] : List String),
         (MoveProcessor.canMove ((engineE.move "left" 0 false).1.board) d).2 = false)) :=
  game_over_iff engineE "left" 0 false rfl rfl (by decide)

/-- Witness for C5: a rejected move (invalid direction) at a concrete engine. -/
theorem move_rejects_witness :
    (engineB.move "diagonal" 0 false).2 = false ∧
    (engineB.move "diagonal" 0 false).1.board = engineB.board ∧
    (engineB.move "diagonal" 0 false).1.score = engineB.score ∧
    (engineB.move "diagonal" 0 false).1.moveCount = engineB.moveCount ∧
    (engineB.move "diagonal" 0 false).1.isWin = engineB.isWin ∧
    (engineB.move "diagonal" 0 false).1.isGameOver = engineB.isGameOver :=
  move_rejects engineB "diagonal" 0 false (Or.inl (by decide))


theorem Board.cell_initGrid (b : Board) (r c : Nat) : b.initGrid.cell r c = 0 := by
  show ((List.replicate b.size (List.replicate b.size 0)).getD r []).getD c 0 = 0
  have houter : (List.replicate b.size (List.replicate b.size 0)).getD r [] = [] ∨
      (List.replicate b.size (List.replicate b.size 0)).getD r [] =
        List.replicate b.size 0 := by
    rcases Nat.lt_or_ge r b.size with h | h
    · right
      rw [List.getD_eq_getElem _ _ (by simpa using h)]
      exact List.getElem_replicate _ _
    · left
      exact List.getD_eq_default _ _ (by simpa using h)
  rcases houter with h | h <;> rw [h]
  · simp
  · rcases Nat.lt_or_ge c b.size with h2 | h2
    · rw [List.getD_eq_getElem _ _ (by simpa using h2)]
      exact List.getElem_replicate _ _
    · exact List.getD_eq_default _ _ (by simpa using h2)

theorem Board.size_initGrid (b : Board) : b.initGrid.size = b.size := rfl

/-- A successful spawn writes `2` or `4` into some previously empty cell. -/
theorem Board.addRandomTile_spec (b : Board) (pick : Nat) (four : Bool)
    (hne : ¬ b.getEmptyCells.length = 0) :
    ∃ pos : Nat × Nat, pos ∈ b.getEmptyCells ∧
      (b.addRandomTile pick four).1 = b.setCell pos.1 pos.2 (if four then 4 else 2) ∧
      (b.addRandomTile pick four).2 = true := by
  unfold Board.addRandomTile
  rw [if_neg hne]
  have hlt : pick % b.getEmptyCells.length < b.getEmptyCells.length :=
    Nat.mod_lt _ (Nat.pos_of_ne_zero hne)
  refine ⟨b.getEmptyCells.getD (pick % b.getEmptyCells.length) (0, 0), ?_, rfl, rfl⟩
  rw [List.getD_eq_getElem _ _ hlt]
  exact List.getElem_mem hlt

/-- Pointwise update of a `range`-mapped list is a `set`. -/
theorem map_range_update {α : Type} (n c : Nat) (hc : c < n) (v : α) (f : Nat → α) :
    (List.range n).map (fun x => if x = c then v else f x) =
      ((List.range n).map f).set c v := by
  apply List.ext_getElem
  · simp
  · intro i h1 h2
    have hi : i < n := by simpa using h1
    simp only [List.getElem_map, List.getElem_range]
    rcases eq_or_ne i c with rfl | hne
    · rw [if_pos rfl]
      rw [List.getElem_set_self _]
    · rw [if_neg hne]
      rw [List.getElem_set_ne (by omega)]
      simp

/-- Overwriting a zero entry with a non-zero value raises the non-zero
count by one. -/
theorem countP_set_succ (l : List Nat) (i : Nat) (v : Nat) (hi : i < l.length)
    (h0 : l[i] = 0) (hv : v ≠ 0) :
    (l.set i v).countP (fun x => x != 0) = l.countP (fun x => x != 0) + 1 := by
  induction l generalizing i with
  | nil => simp at hi
  | cons a t ih =>
    cases i with
    | zero =>
      have ha : a = 0 := by simpa using h0
      subst ha
      simp [List.countP_cons, hv]
    | succ j =>
      have hj : j < t.length := by simpa using hi
      have h0t : t[j] = 0 := by simpa using h0
      simp only [List.set_cons_succ, List.countP_cons]
      rw [ih j hj h0t]
      omega

/-- Replacing a known list entry by its successor raises the sum by one. -/
theorem sum_set_succ (l : List Nat) (i : Nat) (hi : i < l.length) (x : Nat)
    (hx : l[i] = x) : (l.set i (x + 1)).sum = l.sum + 1 := by
  induction l generalizing i with
  | nil => simp at hi
  | cons a t ih =>
    cases i with
    | zero =>
      have ha : a = x := by simpa using hx
      subst ha
      simp [List.sum_cons]
      omega
    | succ j =>
      have hj : j < t.length := by simpa using hi
      have hxt : t[j] = x := by simpa using hx
      simp only [List.set_cons_succ, List.sum_cons]
      rw [ih j hj hxt]
      omega

theorem tileCount_initGrid (b : Board) : GameEngine.tileCount b.initGrid = 0 := by
  unfold GameEngine.tileCount
  apply List.sum_eq_zero
  intro x hx
  rcases List.mem_map.mp hx with ⟨r, _, rfl⟩
  rw [List.countP_eq_zero]
  intro a ha
  rcases List.mem_map.mp ha with ⟨c, _, rfl⟩
  rw [Board.cell_initGrid]
  simp

/-- Writing a non-zero value into an in-range empty cell increments the
tile count. -/
theorem tileCount_setCell (b : Board) (row col : Nat) (v : Nat)
    (hr : row < b.size) (hc : col < b.size) (h0 : b.cell row col = 0) (hv : v ≠ 0) :
    GameEngine.tileCount (b.setCell row col v) = GameEngine.tileCount b + 1 := by
  unfold GameEngine.tileCount
  rw [Board.size_setCell]
  have hrowline : ∀ r : Nat,
      (List.range b.size).map (fun c => (b.setCell row col v).cell r c) =
        if r = row
        then ((List.range b.size).map (fun c => b.cell row c)).set col v
        else (List.range b.size).map (fun c => b.cell r c) := by
    intro r
    rcases eq_or_ne r row with heq | hne
    · subst heq
      rw [if_pos rfl]
      rw [← map_range_update b.size col hc v (fun c => b.cell r c)]
      apply List.map_congr_left
      intro c _
      rw [Board.cell_setCell b r col v hr hc r c]
      rcases eq_or_ne c col with rfl | hnec
      · rw [if_pos ⟨rfl, rfl⟩, if_pos rfl]
      · rw [if_neg (by tauto), if_neg hnec]
    · rw [if_neg hne]
      apply List.map_congr_left
      intro c _
      rw [Board.cell_setCell b row col v hr hc r c]
      rw [if_neg (by tauto)]
  have houter :
      (List.range b.size).map (fun r =>
        ((List.range b.size).map (fun c => (b.setCell row col v).cell r c)).countP
          (fun x => x != 0)) =
      ((List.range b.size).map (fun r =>
        ((List.range b.size).map (fun c => b.cell r c)).countP (fun x => x != 0))).set row
        ((((List.range b.size).map (fun c => b.cell row c)).countP (fun x => x != 0)) + 1) := by
    rw [← map_range_update b.size row hr _ _]
    apply List.map_congr_left
    intro r _
    rw [hrowline r]
    rcases eq_or_ne r row with heq | hne
    · subst heq
      rw [if_pos rfl, if_pos rfl]
      apply countP_set_succ _ col v (by simpa using hc) _ hv
      simpa using h0
    · rw [if_neg hne, if_neg hne]
  rw [houter]
  apply sum_set_succ _ row (by simpa using hr)
  simp

/-- After clearing, the initialized grid has an empty cell, so a spawn
always succeeds there. -/
theorem getEmptyCells_initGrid_ne (b : Board) (hsz : 2 ≤ b.size) :
    ¬ b.initGrid.getEmptyCells.length = 0 := by
  intro hlen
  have hmem : ((0, 0) : Nat × Nat) ∈ b.initGrid.getEmptyCells := by
    rw [Board.mem_getEmptyCells]
    refine ⟨?_, ?_, Board.cell_initGrid b 0 0⟩
    · rw [Board.size_initGrid]; omega
    · rw [Board.size_initGrid]; omega
  rw [List.length_eq_zero.mp hlen] at hmem
  cases hmem

/-- C6: after `initializeGame` (equivalently `restart`) the grid holds
exactly two non-zero tiles, each with value 2 or 4, and score, move count
and both terminal flags are reset. -/
theorem initGame_spec (g : GameEngine) (hsz : 2 ≤ g.size) (p1 p2 : Nat) (f1 f2 : Bool) :
    GameEngine.tileCount (g.initGame p1 p2 f1 f2).board = 2 ∧
    (∀ r c : Nat, (g.initGame p1 p2 f1 f2).board.cell r c ≠ 0 →
      (g.initGame p1 p2 f1 f2).board.cell r c = 2 ∨
      (g.initGame p1 p2 f1 f2).board.cell r c = 4) ∧
    (g.initGame p1 p2 f1 f2).score = 0 ∧
    (g.initGame p1 p2 f1 f2).moveCount = 0 ∧
    (g.initGame p1 p2 f1 f2).isWin = false ∧
    (g.initGame p1 p2 f1 f2).isGameOver = false ∧
    g.restart p1 p2 f1 f2 = g.initGame p1 p2 f1 f2 := by
  have hsz0 : 2 ≤ g.board.size := by rw [g.hsize]; exact hsz
  have hne0 : ¬ g.board.initGrid.getEmptyCells.length = 0 :=
    getEmptyCells_initGrid_ne g.board hsz0
  obtain ⟨pos1, hmem1, heq1, hok1⟩ := Board.addRandomTile_spec g.board.initGrid p1 f1 hne0
  rw [Board.mem_getEmptyCells] at hmem1
  obtain ⟨hr1, hc1, h01⟩ := hmem1
  have hv1 : (if f1 then (4 : Nat) else 2) ≠ 0 := by cases f1 <;> simp
  have hv2 : (if f2 then (4 : Nat) else 2) ≠ 0 := by cases f2 <;> simp
  have hne1 :
      ¬ (g.board.initGrid.setCell pos1.1 pos1.2
          (if f1 then 4 else 2)).getEmptyCells.length = 0 := by
    intro hlen
    by_cases hp : pos1.1 = 0 ∧ pos1.2 = 0
    · obtain ⟨hp1, hp2⟩ := hp
      have hcell :
          (g.board.initGrid.setCell pos1.1 pos1.2 (if f1 then 4 else 2)).cell 0 1 = 0 := by
        rw [Board.cell_setCell _ _ _ _ hr1 hc1 0 1]
        rw [if_neg (by rintro ⟨h1x, h2x⟩; omega)]
        exact Board.cell_initGrid g.board 0 1
      have hmem : ((0, 1) : Nat × Nat) ∈
          (g.board.initGrid.setCell pos1.1 pos1.2 (if f1 then 4 else 2)).getEmptyCells := by
        rw [Board.mem_getEmptyCells]
        refine ⟨?_, ?_, hcell⟩
        · rw [Board.size_setCell, Board.size_initGrid]; omega
        · rw [Board.size_setCell, Board.size_initGrid]; omega
      rw [List.length_eq_zero.mp hlen] at hmem
      cases hmem
    · have hcell :
          (g.board.initGrid.setCell pos1.1 pos1.2 (if f1 then 4 else 2)).cell 0 0 = 0 := by
        rw [Board.cell_setCell _ _ _ _ hr1 hc1 0 0]
        rw [if_neg (by rintro ⟨h1x, h2x⟩; exact hp ⟨h1x.symm, h2x.symm⟩)]
        exact Board.cell_initGrid g.board 0 0
      have hmem : ((0, 0) : Nat × Nat) ∈
          (g.board.initGrid.setCell pos1.1 pos1.2 (if f1 then 4 else 2)).getEmptyCells := by
        rw [Board.mem_getEmptyCells]
        refine ⟨?_, ?_, hcell⟩
        · rw [Board.size_setCell, Board.size_initGrid]; omega
        · rw [Board.size_setCell, Board.size_initGrid]; omega
      rw [List.length_eq_zero.mp hlen] at hmem
      cases hmem
  have hne1' : ¬ (g.board.initGrid.addRandomTile p1 f1).1.getEmptyCells.length = 0 := by
    rw [heq1]; exact hne1
  obtain ⟨pos2, hmem2, heq2, hok2⟩ :=
    Board.addRandomTile_spec (g.board.initGrid.addRandomTile p1 f1).1 p2 f2 hne1'
  rw [heq1] at hmem2 heq2
  rw [Board.mem_getEmptyCells] at hmem2
  obtain ⟨hr2, hc2, h02⟩ := hmem2
  have hboard : (g.initGame p1 p2 f1 f2).board =
      (g.board.initGrid.setCell pos1.1 pos1.2 (if f1 then 4 else 2)).setCell
        pos2.1 pos2.2 (if f2 then 4 else 2) := by
    show ((g.board.initGrid.addRandomTile p1 f1).1.addRandomTile p2 f2).1 = _
    rw [heq1, heq2]
  have hcount : GameEngine.tileCount
      ((g.board.initGrid.setCell pos1.1 pos1.2 (if f1 then 4 else 2)).setCell
        pos2.1 pos2.2 (if f2 then 4 else 2)) = 2 := by
    rw [tileCount_setCell _ pos2.1 pos2.2 _ hr2 hc2 h02 hv2]
    rw [tileCount_setCell _ pos1.1 pos1.2 _ hr1 hc1 h01 hv1]
    rw [tileCount_initGrid]
  have hvals : ∀ r c : Nat,
      ((g.board.initGrid.setCell pos1.1 pos1.2 (if f1 then 4 else 2)).setCell
        pos2.1 pos2.2 (if f2 then 4 else 2)).cell r c ≠ 0 →
      ((g.board.initGrid.setCell pos1.1 pos1.2 (if f1 then 4 else 2)).setCell
        pos2.1 pos2.2 (if f2 then 4 else 2)).cell r c = 2 ∨
      ((g.board.initGrid.setCell pos1.1 pos1.2 (if f1 then 4 else 2)).setCell
        pos2.1 pos2.2 (if f2 then 4 else 2)).cell r c = 4 := by
    intro r c hne
    rw [Board.cell_setCell _ pos2.1 pos2.2 _ hr2 hc2 r c] at hne ⊢
    by_cases h2 : r = pos2.1 ∧ c = pos2.2
    · rw [if_pos h2]
      cases f2 <;> simp
    · rw [if_neg h2] at hne ⊢
      rw [Board.cell_setCell _ pos1.1 pos1.2 _ hr1 hc1 r c] at hne ⊢
      by_cases h1 : r = pos1.1 ∧ c = pos1.2
      · rw [if_pos h1]
        cases f1 <;> simp
      · rw [if_neg h1] at hne ⊢
        rw [Board.cell_initGrid] at hne
        exact absurd rfl hne
  refine ⟨?_, ?_, rfl, rfl, rfl, rfl, rfl⟩
  · rw [hboard]
    exact hcount
  · intro r c
    rw [hboard]
    exact hvals r c

/-- A used-up engine (score, move count, win flag all dirty) to restart. -/
def engineF : GameEngine :=
  ⟨4, boardD, 10, true, false, 5, none, rfl⟩

/-- Witness for C6: restarting a dirty engine at concrete spawn choices. -/
theorem initGame_spec_witness :
    GameEngine.tileCount (engineF.initGame 0 1 false true).board = 2 ∧
    (∀ r c : Nat, (engineF.initGame 0 1 false true).board.cell r c ≠ 0 →
      (engineF.initGame 0 1 false true).board.cell r c = 2 ∨
      (engineF.initGame 0 1 false true).board.cell r c = 4) ∧
    (engineF.initGame 0 1 false true).score = 0 ∧
    (engineF.initGame 0 1 false true).moveCount = 0 ∧
    (engineF.initGame 0 1 false true).isWin = false ∧
    (engineF.initGame 0 1 false true).isGameOver = false ∧
    engineF.restart 0 1 false true = engineF.initGame 0 1 false true :=
  initGame_spec engineF (by decide) 0 1 false true

/-- Total of all tile values on the board. -/
def boardSum (b : Board) : Nat :=
  (b.grid.map List.sum).sum

theorem sum_filter_ne_zero (l : List Nat) :
    (l.filter (fun v => v != 0)).sum = l.sum := by
  induction l with
  | nil => rfl
  | cons a t ih =>
    by_cases ha : a = 0
    · subst ha
      simp [List.filter_cons, ih]
    · rw [List.filter_cons, if_pos (by simpa using ha), List.sum_cons, List.sum_cons, ih]

theorem sum_map_add {α : Type} (l : List α) (g h : α → Nat) :
    (l.map (fun x => g x + h x)).sum = (l.map g).sum + (l.map h).sum := by
  induction l with
  | nil => rfl
  | cons a t ih =>
    simp only [List.map_cons, List.sum_cons, ih]
    omega

/-- Interchange of a double sum over two index ranges. -/
theorem sum_range_swap (n m : Nat) (f : Nat → Nat → Nat) :
    ((List.range n).map (fun r => ((List.range m).map (fun c => f r c)).sum)).sum =
      ((List.range m).map (fun c => ((List.range n).map (fun r => f r c)).sum)).sum := by
  induction n with
  | zero =>
    simp
  | succ k ih =>
    rw [List.range_succ, List.map_append, List.sum_append, ih]
    have hsplit : (List.range m).map
        (fun c => ((List.range k ++ [k]).map (fun r => f r c)).sum) =
        (List.range m).map
          (fun c => ((List.range k).map (fun r => f r c)).sum + f k c) := by
      apply List.map_congr_left
      intro c _
      rw [List.map_append, List.sum_append]
      simp
    rw [hsplit, sum_map_add]
    simp

theorem boardSum_moveLeft (b : Board) :
    boardSum (MoveProcessor.moveLeft b).1 = boardSum b := by
  unfold boardSum
  rw [MoveProcessor.moveLeft_grid, List.map_map]
  congr 1
  apply List.map_congr_left
  intro row hrow
  show ((MoveProcessor.moveLeftRow b.size row).1).sum = row.sum
  rw [MoveProcessor.moveLeftRow_fst]
  have hlen : (MoveProcessor.mergeLine (row.filter (fun v => v != 0))).1.length ≤ b.size :=
    calc (MoveProcessor.mergeLine (row.filter (fun v => v != 0))).1.length
        ≤ (row.filter (fun v => v != 0)).length := MoveProcessor.mergeLine_length_le _
      _ ≤ row.length := List.length_filter_le _ _
      _ = b.size := b.hcols row hrow
  rw [MoveProcessor.padRow_eq_append _ _ hlen, List.sum_append]
  rw [MoveProcessor.mergeLine_sum, sum_filter_ne_zero]
  simp

theorem boardSum_reverseRows (b : Board) :
    boardSum (MoveProcessor.reverseRows b) = boardSum b := by
  unfold boardSum
  show ((b.grid.map List.reverse).map List.sum).sum = _
  rw [List.map_map]
  congr 1
  apply List.map_congr_left
  intro row _
  exact List.sum_reverse row

theorem boardSum_transpose (b : Board) :
    boardSum (MoveProcessor.transpose b) = boardSum b := by
  unfold boardSum
  show (((List.range b.size).map
      (fun r => (List.range b.size).map (fun c => b.cell c r))).map List.sum).sum = _
  rw [List.map_map]
  have hL : ((List.range b.size).map
      (List.sum ∘ fun r => (List.range b.size).map (fun c => b.cell c r))) =
      (List.range b.size).map
        (fun r => ((List.range b.size).map (fun c => b.cell c r)).sum) := rfl
  rw [hL, sum_range_swap]
  rw [show b.grid = (List.range b.size).map
      (fun r => (List.range b.size).map (fun c => b.cell r c)) from
    (Board.grid_eq_ofCells b).symm]
  rw [List.map_map]
  rfl

theorem boardSum_moveRight (b : Board) :
    boardSum (MoveProcessor.moveRight b).1 = boardSum b := by
  show boardSum (MoveProcessor.reverseRows
    (MoveProcessor.moveLeft (MoveProcessor.reverseRows b)).1) = _
  rw [boardSum_reverseRows, boardSum_moveLeft, boardSum_reverseRows]

theorem boardSum_moveUp (b : Board) :
    boardSum (MoveProcessor.moveUp b).1 = boardSum b := by
  show boardSum (MoveProcessor.transpose
    (MoveProcessor.moveLeft (MoveProcessor.transpose b)).1) = _
  rw [boardSum_transpose, boardSum_moveLeft, boardSum_transpose]

theorem boardSum_moveDown (b : Board) :
    boardSum (MoveProcessor.moveDown b).1 = boardSum b := by
  show boardSum (MoveProcessor.transpose
    (MoveProcessor.moveRight (MoveProcessor.transpose b)).1) = _
  rw [boardSum_transpose, boardSum_moveRight, boardSum_transpose]

/-- C10: `mergeLine` preserves the sum of the line and reports as score the
sum of the doubled values it produced; consequently every one of the four
moves preserves the total of all tile values on the board (the state
before the new tile is spawned). -/
theorem merge_and_moves_preserve_sum :
    (∀ l : List Nat, (MoveProcessor.mergeLine l).1.sum = l.sum ∧
      (MoveProcessor.mergeLine l).2 = (MoveProcessor.mergedDoubles l).sum) ∧
    (∀ b : Board,
      boardSum (MoveProcessor.moveLeft b).1 = boardSum b ∧
      boardSum (MoveProcessor.moveRight b).1 = boardSum b ∧
      boardSum (MoveProcessor.moveUp b).1 = boardSum b ∧
      boardSum (MoveProcessor.moveDown b).1 = boardSum b) := by
  constructor
  · intro l
    exact ⟨MoveProcessor.mergeLine_sum l, MoveProcessor.mergeLine_score l⟩
  · intro b
    exact ⟨boardSum_moveLeft b, boardSum_moveRight b, boardSum_moveUp b,
      boardSum_moveDown b⟩

end Game2048
